import Mathlib

/-!
Verification of the image transcoding and compression-search engine of the
pngtojpg repository (src/src/utils/imageProcessor.js and its callers).

The JavaScript source is shallowly embedded: numbers that the code handles as
IEEE doubles on exact integer/fraction values are modelled as rationals (ℚ),
byte counts as naturals, and the browser primitives (canvas rasterization and
the toBlob encoders) as explicit function parameters.  Each definition mirrors
one function of the source; theorems about the claims follow the definitions.
-/

/-- Output format tag of a conversion result or request. -/
inductive ImageFormat
  | PNG
  | JPEG
  | WEBP
deriving DecidableEq, Repr

/-- A composed canvas surface as the engine observes it: the flat RGBA byte
array that `ctx.getImageData(0, 0, canvas.width, canvas.height).data` yields
(4 bytes per pixel, row-major). -/
structure Canvas where
  data : List ℕ
deriving DecidableEq, Repr

/-- The bytes visited by the loop `for (let i = 3; i < data.length; i += 4)`
in `hasTransparency` (imageProcessor.js lines 10-14): every fourth byte
starting at index 3, i.e. the alpha byte of each complete RGBA quadruple. -/
def alphaBytes : List ℕ → List ℕ
  | _ :: _ :: _ :: a :: rest => a :: alphaBytes rest
  | _ => []

/-- Translation of `hasTransparency` (imageProcessor.js lines 6-16): scan the
alpha bytes and report whether any is below 255. -/
def hasTransparency (canvas : Canvas) : Bool :=
  (alphaBytes canvas.data).any fun a => decide (a < 255)

/-- Output dimensions carried by crop parameters
(`cropParams.outputDimensions`). -/
structure OutputDims where
  width : ℚ
  height : ℚ
deriving DecidableEq, Repr

/-- Crop parameters as produced by CropSelector (ImagePreview.jsx,
`handleConfirmCrop`): normalized position and size, the aspect-ratio tag and
the pixel output dimensions.  The engine reads `x`, `y`, `width`, `height`,
`outputDimensions` and `aspectRatio`. -/
structure CropParams where
  x : ℚ
  y : ℚ
  width : ℚ
  height : ℚ
  outputDimensions : Option OutputDims
  aspectRatio : Option String
deriving DecidableEq, Repr

/-- The placement values computed by `processImage` before drawing
(imageProcessor.js lines 24-77). -/
structure Geometry where
  targetWidth : ℚ
  targetHeight : ℚ
  sourceX : ℚ
  sourceY : ℚ
  sourceWidth : ℚ
  sourceHeight : ℚ
  drawWidth : ℚ
  drawHeight : ℚ
  offsetX : ℚ
  offsetY : ℚ
deriving DecidableEq, Repr

/-- Translation of the geometry portion of `processImage` (imageProcessor.js
lines 24-77): target dimensions default to 1920x1080 unless
`cropParams.outputDimensions` is present; with crop parameters the source
sub-rectangle is the normalized rectangle scaled by the image dimensions and
the draw rectangle is the full canvas; without crop parameters the full image
is drawn scaled to cover the canvas, centered. -/
def resolveGeometry (imgWidth imgHeight : ℚ) (cropParams : Option CropParams) :
    Geometry :=
  let dims : ℚ × ℚ :=
    match cropParams with
    | some cp =>
      match cp.outputDimensions with
      | some od => (od.width, od.height)
      | none => (1920, 1080)
    | none => (1920, 1080)
  let targetWidth := dims.1
  let targetHeight := dims.2
  let imgAspect := imgWidth / imgHeight
  let targetAspect := targetWidth / targetHeight
  match cropParams with
  | some cp =>
    { targetWidth := targetWidth, targetHeight := targetHeight,
      sourceX := cp.x * imgWidth, sourceY := cp.y * imgHeight,
      sourceWidth := cp.width * imgWidth, sourceHeight := cp.height * imgHeight,
      drawWidth := targetWidth, drawHeight := targetHeight,
      offsetX := 0, offsetY := 0 }
  | none =>
    if imgAspect > targetAspect then
      let drawHeight := targetHeight
      let drawWidth := drawHeight * imgAspect
      { targetWidth := targetWidth, targetHeight := targetHeight,
        sourceX := 0, sourceY := 0,
        sourceWidth := imgWidth, sourceHeight := imgHeight,
        drawWidth := drawWidth, drawHeight := drawHeight,
        offsetX := (targetWidth - drawWidth) / 2, offsetY := 0 }
    else
      let drawWidth := targetWidth
      let drawHeight := drawWidth / imgAspect
      { targetWidth := targetWidth, targetHeight := targetHeight,
        sourceX := 0, sourceY := 0,
        sourceWidth := imgWidth, sourceHeight := imgHeight,
        drawWidth := drawWidth, drawHeight := drawHeight,
        offsetX := 0, offsetY := (targetHeight - drawHeight) / 2 }

/-- JavaScript `Math.round` on a rational argument: floor of x + 1/2. -/
def jsRound (x : ℚ) : ℤ := ⌊x + 1 / 2⌋

/-- Result dimensions record (`result.dimensions`). -/
structure Dimensions where
  width : ℚ
  height : ℚ
deriving DecidableEq, Repr

/-- The fields of the result object built by `processImage`, minus the opaque
browser handles (`blob`, `url`).  `size` is `blob.size` in bytes.  Fields the
PNG path does not set (`originalSizeKB`, `compressionRatio`) are options. -/
structure ProcResult where
  size : ℕ
  sizeKB : ℤ
  quality : ℤ
  dimensions : Dimensions
  aspectRatio : String
  format : ImageFormat
  preservedTransparency : Bool
  originalSizeKB : Option ℤ
  compressionRatio : Option ℤ
deriving DecidableEq, Repr

/-- Translation of `compressImage` (imageProcessor.js lines 132-138): the
JPEG encoder is invoked with `quality / 100`.  The encoder itself
(`tempCanvas.toBlob(..., 'image/jpeg', q)`) is a browser primitive, modelled
as the parameter `encode` mapping the quality ratio actually passed to the
size in bytes of the blob it produces for the fixed composed canvas. -/
def compressImage (encode : ℚ → ℕ) (quality : ℚ) : ℕ :=
  encode (quality / 100)

/-- One iteration of the `for (const quality of qualityLevels)` loop of
`findOptimalCompression` (imageProcessor.js lines 199-210).  The state is
`(bestBlob, bestQuality, bestCompressionRatio)`. -/
def sweepStep (encode : ℚ → ℕ) (originalSizeKB : ℚ)
    (best : Option ℕ × ℚ × ℚ) (quality : ℚ) : Option ℕ × ℚ × ℚ :=
  let blob := compressImage encode quality
  let sizeKB : ℚ := (blob : ℚ) / 1024
  let ratio : ℚ := (originalSizeKB - sizeKB) / originalSizeKB
  if sizeKB < originalSizeKB ∧ ratio > best.2.2 then (some blob, quality, ratio)
  else best

/-- The `originalSizeKB = file.size / 1024` constant (imageProcessor.js
line 141), captured by `findOptimalCompression`. -/
def originalSizeKBOf (fileSize : ℕ) : ℚ := (fileSize : ℚ) / 1024

/-- The `startQuality` variable after the size-based adjustment
(imageProcessor.js lines 170-181).  The source computes it and feeds it in as
the initial `bestQuality`, but it is always overwritten before being
returned. -/
def startQualityOf (fileSize : ℕ) : ℚ :=
  if originalSizeKBOf fileSize > 2000 then 70
  else if originalSizeKBOf fileSize > 1000 then 75 else 85

/-- The `minQuality` variable after the size-based adjustment
(imageProcessor.js lines 171-181): 30 by default, 25 above 1000KB, 20 above
2000KB. -/
def minQualityOf (fileSize : ℕ) : ℚ :=
  if originalSizeKBOf fileSize > 2000 then 20
  else if originalSizeKBOf fileSize > 1000 then 25 else 30

/-- The `qualityLevels` candidate ladder (imageProcessor.js lines 188-197):
`[maxQuality, 85, 75, 65, 55, 45, 35, minQuality]` with `maxQuality = 95`
(line 172). -/
def qualityLevels (fileSize : ℕ) : List ℚ :=
  [95, 85, 75, 65, 55, 45, 35, minQualityOf fileSize]

/-- Return value of `findOptimalCompression` (`{blob, quality}`), together
with the ordered list of quality values passed to `compressImage` during the
call (the encode trace). -/
structure OptChoice where
  blobSize : ℕ
  quality : ℚ
  encoded : List ℚ
deriving DecidableEq, Repr

/-- Translation of `findOptimalCompression` (imageProcessor.js lines
168-228): sweep the fixed quality ladder keeping the best strictly-shrinking
candidate; fall back to a fresh encode at `maxQuality` when none shrank; for
originals under 100KB whose best blob is still larger than the original, try
quality 98 once and accept it when it does not exceed the original size. -/
def findOptimalCompression (encode : ℚ → ℕ) (fileSize : ℕ) : OptChoice :=
  match (qualityLevels fileSize).foldl
      (sweepStep encode (originalSizeKBOf fileSize))
      (none, startQualityOf fileSize, 0) with
  | (none, _, _) =>
    let bestBlob := compressImage encode 95
    if originalSizeKBOf fileSize < 100 ∧ fileSize < bestBlob then
      let highQualityBlob := compressImage encode 98
      if highQualityBlob ≤ fileSize then
        { blobSize := highQualityBlob, quality := 98,
          encoded := qualityLevels fileSize ++ [95, 98] }
      else
        { blobSize := bestBlob, quality := 95,
          encoded := qualityLevels fileSize ++ [95, 98] }
    else
      { blobSize := bestBlob, quality := 95,
        encoded := qualityLevels fileSize ++ [95] }
  | (some bestBlob, bestQuality, _) =>
    if originalSizeKBOf fileSize < 100 ∧ fileSize < bestBlob then
      let highQualityBlob := compressImage encode 98
      if highQualityBlob ≤ fileSize then
        { blobSize := highQualityBlob, quality := 98,
          encoded := qualityLevels fileSize ++ [98] }
      else
        { blobSize := bestBlob, quality := bestQuality,
          encoded := qualityLevels fileSize ++ [98] }
    else
      { blobSize := bestBlob, quality := bestQuality,
        encoded := qualityLevels fileSize }

/-- Translation of `processImage` (imageProcessor.js lines 18-257) after the
image has loaded and the canvas has been composed.  Browser primitives appear
as parameters: `composed` is the canvas pixel data after `drawImage`,
`pngBlobSize` the byte size produced by `canvas.toBlob(..., 'image/png')`,
and `encode` the JPEG encoder as in `compressImage`.  The second component of
the result is the ordered trace of quality values passed to `compressImage`.
The declared signature has exactly three data parameters
`(file, targetQuality, cropParams)`; there is no output-format parameter. -/
def processImage (fileSize : ℕ) (imgWidth imgHeight : ℚ) (targetQuality : Option ℤ)
    (cropParams : Option CropParams) (composed : Canvas) (pngBlobSize : ℕ)
    (encode : ℚ → ℕ) : ProcResult × List ℚ :=
  let geom := resolveGeometry imgWidth imgHeight cropParams
  let aspectTag : String :=
    match cropParams with
    | some cp => cp.aspectRatio.getD "16:9"
    | none => "16:9"
  if hasTransparency composed then
    ({ size := pngBlobSize, sizeKB := jsRound ((pngBlobSize : ℚ) / 1024),
       quality := 100,
       dimensions := { width := geom.targetWidth, height := geom.targetHeight },
       aspectRatio := aspectTag, format := ImageFormat.PNG,
       preservedTransparency := true,
       originalSizeKB := none, compressionRatio := none }, [])
  else
    let originalSizeKB : ℚ := (fileSize : ℚ) / 1024
    match targetQuality with
    | some q =>
      let blob := compressImage encode (q : ℚ)
      ({ size := blob, sizeKB := jsRound ((blob : ℚ) / 1024),
         quality := q,
         dimensions := { width := geom.targetWidth, height := geom.targetHeight },
         aspectRatio := aspectTag, format := ImageFormat.JPEG,
         preservedTransparency := false,
         originalSizeKB := some (jsRound originalSizeKB),
         compressionRatio := some (jsRound ((1 - (blob : ℚ) / (fileSize : ℚ)) * 100)) },
       [(q : ℚ)])
    | none =>
      let fo := findOptimalCompression encode fileSize
      ({ size := fo.blobSize, sizeKB := jsRound ((fo.blobSize : ℚ) / 1024),
         quality := jsRound fo.quality,
         dimensions := { width := geom.targetWidth, height := geom.targetHeight },
         aspectRatio := aspectTag, format := ImageFormat.JPEG,
         preservedTransparency := false,
         originalSizeKB := some (jsRound originalSizeKB),
         compressionRatio := some (jsRound ((1 - (fo.blobSize : ℚ) / (fileSize : ℚ)) * 100)) },
       fo.encoded)

/-- The call shape used by ImagePreview.jsx
(`processImage(originalInfo.file, targetQuality, cropParams, newFormat)`):
the fourth argument carries the requested output format, but the declared
signature of `processImage` (imageProcessor.js line 18) has only three
parameters, so JavaScript discards the extra argument.  The model therefore
ignores `outputFormat`. -/
def processImageWithFormat (fileSize : ℕ) (imgWidth imgHeight : ℚ)
    (targetQuality : Option ℤ) (cropParams : Option CropParams) (composed : Canvas)
    (pngBlobSize : ℕ) (encode : ℚ → ℕ) (outputFormat : ImageFormat) :
    ProcResult × List ℚ :=
  processImage fileSize imgWidth imgHeight targetQuality cropParams composed
    pngBlobSize encode

/-- Translation of `processImageWithCrop` in App.jsx (src/unnamed/part_000,
lines 82-95): it invokes `processImage(file, 500, cropParameters)`, passing
the literal 500 as the target quality. -/
def processImageWithCrop (fileSize : ℕ) (imgWidth imgHeight : ℚ)
    (cropParams : Option CropParams) (composed : Canvas) (pngBlobSize : ℕ)
    (encode : ℚ → ℕ) : ProcResult × List ℚ :=
  processImage fileSize imgWidth imgHeight (some 500) cropParams composed
    pngBlobSize encode

/-- Indices `4*k+3` with `k ≥ 0` are out of range in a list of length at most
three. -/
theorem get?_small_of_length_le (l : List ℕ) (k : ℕ) (h : l.length ≤ 3) :
    l.get? (4 * k + 3) = none :=
  List.get?_eq_none.mpr (by omega)

/-- Dropping one RGBA quadruple shifts the alpha index down by four. -/
theorem get?_cons4 (r g b a : ℕ) (rest : List ℕ) (k : ℕ) :
    (r :: g :: b :: a :: rest).get? (4 * (k + 1) + 3) = rest.get? (4 * k + 3) := by
  have h : 4 * (k + 1) + 3 = 4 * k + 3 + 1 + 1 + 1 + 1 := by ring
  rw [h]
  rfl

/-- The bytes visited by the transparency scan are exactly the bytes at flat
indices `4*k+3`, i.e. the alpha byte of each complete pixel. -/
theorem mem_alphaBytes (l : List ℕ) (x : ℕ) :
    x ∈ alphaBytes l ↔ ∃ k, l.get? (4 * k + 3) = some x := by
  induction l using alphaBytes.induct with
  | case1 r g b a rest ih =>
    rw [alphaBytes]
    simp only [List.mem_cons, ih]
    constructor
    · rintro (rfl | ⟨k, hk⟩)
      · exact ⟨0, rfl⟩
      · exact ⟨k + 1, by rw [get?_cons4]; exact hk⟩
    · rintro ⟨k, hk⟩
      cases k with
      | zero =>
        left
        have h : some a = some x := hk
        exact (Option.some.inj h).symm
      | succ k =>
        right
        exact ⟨k, by rw [get?_cons4] at hk; exact hk⟩
  | case2 l h =>
    rw [alphaBytes.eq_def]
    match l, h with
    | [], _ => simp
    | [r], _ => simp [get?_small_of_length_le]
    | [r, g], _ => simp [get?_small_of_length_le]
    | [r, g, b], _ => simp [get?_small_of_length_le]
    | r :: g :: b :: a :: rest, h => exact absurd rfl (h r g b a rest)

/-- The transparency scan succeeds exactly when some pixel of the composed
surface has an alpha byte below 255. -/
theorem hasTransparency_eq_true_iff (c : Canvas) :
    hasTransparency c = true ↔ ∃ k a, c.data.get? (4 * k + 3) = some a ∧ a < 255 := by
  unfold hasTransparency
  rw [List.any_eq_true]
  constructor
  · rintro ⟨a, ha, hlt⟩
    obtain ⟨k, hk⟩ := (mem_alphaBytes _ _).mp ha
    exact ⟨k, a, hk, by simpa using hlt⟩
  · rintro ⟨k, a, hk, hlt⟩
    exact ⟨a, (mem_alphaBytes _ _).mpr ⟨k, hk⟩, by simpa using hlt⟩

/-- C1: when the composed destination surface contains a pixel with alpha
strictly below 255, a conversion requesting JPEG output yields format PNG
(never JPEG) with quality 100; and the transparency detector reports true
exactly when some pixel of the composed surface has alpha below 255. -/
theorem c1_transparency_forces_png (fileSize : ℕ) (imgWidth imgHeight : ℚ)
    (targetQuality : Option ℤ) (cropParams : Option CropParams) (composed : Canvas)
    (pngBlobSize : ℕ) (encode : ℚ → ℕ)
    (htr : hasTransparency composed = true) :
    ((processImageWithFormat fileSize imgWidth imgHeight targetQuality cropParams
        composed pngBlobSize encode ImageFormat.JPEG).1.format = ImageFormat.PNG ∧
      (processImageWithFormat fileSize imgWidth imgHeight targetQuality cropParams
        composed pngBlobSize encode ImageFormat.JPEG).1.format ≠ ImageFormat.JPEG ∧
      (processImageWithFormat fileSize imgWidth imgHeight targetQuality cropParams
        composed pngBlobSize encode ImageFormat.JPEG).1.quality = 100) ∧
    (hasTransparency composed = true ↔
      ∃ k a, composed.data.get? (4 * k + 3) = some a ∧ a < 255) := by
  refine ⟨?_, hasTransparency_eq_true_iff composed⟩
  simp [processImageWithFormat, processImage, htr]

/-- Witness for C1 at a concrete transparent canvas. -/
theorem c1_transparency_forces_png_witness :
    hasTransparency ⟨[0, 0, 0, 128]⟩ = true ∧
    (((processImageWithFormat 1000 100 100 none none ⟨[0, 0, 0, 128]⟩ 900
        (fun _ => 500) ImageFormat.JPEG).1.format = ImageFormat.PNG ∧
      (processImageWithFormat 1000 100 100 none none ⟨[0, 0, 0, 128]⟩ 900
        (fun _ => 500) ImageFormat.JPEG).1.format ≠ ImageFormat.JPEG ∧
      (processImageWithFormat 1000 100 100 none none ⟨[0, 0, 0, 128]⟩ 900
        (fun _ => 500) ImageFormat.JPEG).1.quality = 100) ∧
    (hasTransparency ⟨[0, 0, 0, 128]⟩ = true ↔
      ∃ k a, (Canvas.mk [0, 0, 0, 128]).data.get? (4 * k + 3) = some a ∧ a < 255)) :=
  ⟨by decide,
    c1_transparency_forces_png 1000 100 100 none none ⟨[0, 0, 0, 128]⟩ 900
      (fun _ => 500) (by decide)⟩

/-- Byte counts compare the same way their kilobyte values do. -/
theorem kb_lt_iff (a b : ℕ) : (a : ℚ) / 1024 < (b : ℚ) / 1024 ↔ a < b := by
  rw [div_lt_div_iff (by norm_num) (by norm_num)]
  constructor
  · intro h
    have h2 : (a : ℚ) < b := by nlinarith
    exact_mod_cast h2
  · intro h
    have h2 : (a : ℚ) < b := by exact_mod_cast h
    nlinarith

/-- Loop invariant for the quality-ladder sweep: after processing the
candidates in `done`, the state either still has no best blob (and then no
processed candidate was strictly smaller than the original) or holds the
smallest strictly-shrinking candidate seen so far together with its quality
and compression ratio. -/
def SweepInv (encode : ℚ → ℕ) (originalSizeKB : ℚ) (done : List ℚ) :
    Option ℕ × ℚ × ℚ → Prop
  | (none, _, rb) =>
      rb = 0 ∧ ∀ q ∈ done, ¬ ((compressImage encode q : ℚ) / 1024 < originalSizeKB)
  | (some b, bq, rb) =>
      bq ∈ done ∧ b = compressImage encode bq ∧
      (b : ℚ) / 1024 < originalSizeKB ∧
      rb = (originalSizeKB - (b : ℚ) / 1024) / originalSizeKB ∧
      ∀ q ∈ done, (compressImage encode q : ℚ) / 1024 < originalSizeKB →
        b ≤ compressImage encode q

/-- One sweep iteration preserves the invariant. -/
theorem sweepStep_inv (encode : ℚ → ℕ) (K : ℚ) (done : List ℚ)
    (st : Option ℕ × ℚ × ℚ) (q : ℚ) (h : SweepInv encode K done st) :
    SweepInv encode K (done ++ [q]) (sweepStep encode K st q) := by
  obtain ⟨ob, bq, rb⟩ := st
  rw [sweepStep]
  simp only
  by_cases hc : ((compressImage encode q : ℚ) / 1024 < K ∧
      (K - (compressImage encode q : ℚ) / 1024) / K > rb)
  · rw [if_pos hc]
    obtain ⟨hlt, hgt⟩ := hc
    have hK : 0 < K := lt_of_le_of_lt (by positivity) hlt
    refine ⟨by simp, rfl, hlt, rfl, ?_⟩
    intro q2 hq2 hq2small
    rcases List.mem_append.mp hq2 with hq2 | hq2
    · cases ob with
      | none =>
        obtain ⟨hrb, hnone⟩ := h
        exact absurd hq2small (hnone q2 hq2)
      | some b0 =>
        obtain ⟨hmem, hbdef, hb0, hrb, hmax⟩ := h
        have hlt0 : compressImage encode q < b0 := by
          rw [hrb, gt_iff_lt, div_lt_div_iff hK hK] at hgt
          have h1 := lt_of_mul_lt_mul_right hgt hK.le
          have h2 : (compressImage encode q : ℚ) < (b0 : ℚ) := by linarith
          exact_mod_cast h2
        exact le_trans (le_of_lt hlt0) (hmax q2 hq2 hq2small)
    · simp only [List.mem_singleton] at hq2
      subst hq2
      exact le_refl _
  · rw [if_neg hc]
    push_neg at hc
    cases ob with
    | none =>
      obtain ⟨hrb, hnone⟩ := h
      subst hrb
      refine ⟨rfl, ?_⟩
      intro q2 hq2
      rcases List.mem_append.mp hq2 with hq2 | hq2
      · exact hnone q2 hq2
      · simp only [List.mem_singleton] at hq2
        subst hq2
        intro hsmall
        have hK : 0 < K := lt_of_le_of_lt (by positivity) hsmall
        have hr : 0 < (K - (compressImage encode q2 : ℚ) / 1024) / K :=
          div_pos (by linarith) hK
        have hle := hc hsmall
        linarith
    | some b0 =>
      obtain ⟨hmem, hbdef, hb0, hrb, hmax⟩ := h
      refine ⟨List.mem_append.mpr (Or.inl hmem), hbdef, hb0, hrb, ?_⟩
      intro q2 hq2 hq2small
      rcases List.mem_append.mp hq2 with hq2 | hq2
      · exact hmax q2 hq2 hq2small
      · simp only [List.mem_singleton] at hq2
        subst hq2
        have hK : 0 < K := lt_of_le_of_lt (by positivity) hq2small
        have hle := hc hq2small
        rw [hrb, div_le_div_iff hK hK] at hle
        have h1 := le_of_mul_le_mul_right hle hK
        have h2 : (b0 : ℚ) ≤ (compressImage encode q2 : ℚ) := by linarith
        exact_mod_cast h2

/-- The invariant propagates through the whole fold. -/
theorem sweep_foldl_inv (encode : ℚ → ℕ) (K : ℚ) :
    ∀ (l done : List ℚ) (st : Option ℕ × ℚ × ℚ),
      SweepInv encode K done st →
      SweepInv encode K (done ++ l) (l.foldl (sweepStep encode K) st) := by
  intro l
  induction l with
  | nil => intro done st h; simpa using h
  | cons q l ih =>
    intro done st h
    have h2 := sweepStep_inv encode K done st q h
    have h3 := ih (done ++ [q]) _ h2
    simpa [List.append_assoc] using h3

/-- Invariant instance for the sweep performed by `findOptimalCompression`. -/
theorem findOptimalCompression_sweep (encode : ℚ → ℕ) (fileSize : ℕ) :
    SweepInv encode (originalSizeKBOf fileSize) (qualityLevels fileSize)
      ((qualityLevels fileSize).foldl
        (sweepStep encode (originalSizeKBOf fileSize))
        (none, startQualityOf fileSize, 0)) := by
  have h0 : SweepInv encode (originalSizeKBOf fileSize) []
      (none, startQualityOf fileSize, 0) := ⟨rfl, by simp⟩
  simpa using sweep_foldl_inv encode _ (qualityLevels fileSize) [] _ h0

/-- When some ladder candidate encodes strictly smaller than the original
file, the search returns a strictly-shrinking ladder candidate of minimal
encoded size (equivalently, of maximal compression ratio). -/
theorem findOptimalCompression_of_shrinking (encode : ℚ → ℕ) (fileSize : ℕ)
    (hex : ∃ q ∈ qualityLevels fileSize, compressImage encode q < fileSize) :
    (findOptimalCompression encode fileSize).quality ∈ qualityLevels fileSize ∧
    (findOptimalCompression encode fileSize).blobSize =
      compressImage encode (findOptimalCompression encode fileSize).quality ∧
    (findOptimalCompression encode fileSize).blobSize < fileSize ∧
    ∀ q ∈ qualityLevels fileSize, compressImage encode q < fileSize →
      (findOptimalCompression encode fileSize).blobSize ≤ compressImage encode q := by
  have hinv := findOptimalCompression_sweep encode fileSize
  unfold findOptimalCompression
  rcases hsw : (qualityLevels fileSize).foldl
      (sweepStep encode (originalSizeKBOf fileSize))
      (none, startQualityOf fileSize, 0) with ⟨ob, bq, rb⟩
  rw [hsw] at hinv
  cases ob with
  | none =>
    obtain ⟨hrb, hnone⟩ := hinv
    obtain ⟨q, hq, hqs⟩ := hex
    have : (compressImage encode q : ℚ) / 1024 < originalSizeKBOf fileSize := by
      rw [originalSizeKBOf]
      exact (kb_lt_iff _ _).mpr hqs
    exact absurd this (hnone q hq)
  | some b =>
    obtain ⟨hmem, hbdef, hsmall, hrb, hmax⟩ := hinv
    rw [originalSizeKBOf] at hsmall
    have hbfs : b < fileSize := (kb_lt_iff _ _).mp hsmall
    have hcond : ¬ (originalSizeKBOf fileSize < 100 ∧ fileSize < b) := by
      rintro ⟨-, h2⟩
      omega
    dsimp only
    rw [if_neg hcond]
    refine ⟨hmem, hbdef, hbfs, ?_⟩
    intro q hq hqs
    apply hmax q hq
    rw [originalSizeKBOf]
    exact (kb_lt_iff _ _).mpr hqs

/-- When no ladder candidate shrinks the file, the search falls back to a
fresh encode at quality 95, upgraded to a single quality-98 re-encode for
sub-100KB originals whenever that re-encode does not exceed the original
size. -/
theorem findOptimalCompression_of_not_shrinking (encode : ℚ → ℕ) (fileSize : ℕ)
    (hnone : ∀ q ∈ qualityLevels fileSize, ¬ compressImage encode q < fileSize) :
    (findOptimalCompression encode fileSize).quality =
      (if originalSizeKBOf fileSize < 100 ∧ fileSize < compressImage encode 95 ∧
          compressImage encode 98 ≤ fileSize then 98 else 95) ∧
    (findOptimalCompression encode fileSize).blobSize =
      (if originalSizeKBOf fileSize < 100 ∧ fileSize < compressImage encode 95 ∧
          compressImage encode 98 ≤ fileSize then compressImage encode 98
       else compressImage encode 95) := by
  have hinv := findOptimalCompression_sweep encode fileSize
  unfold findOptimalCompression
  rcases hsw : (qualityLevels fileSize).foldl
      (sweepStep encode (originalSizeKBOf fileSize))
      (none, startQualityOf fileSize, 0) with ⟨ob, bq, rb⟩
  rw [hsw] at hinv
  cases ob with
  | some b =>
    obtain ⟨hmem, hbdef, hsmall, hrb, hmax⟩ := hinv
    rw [originalSizeKBOf] at hsmall
    have hbfs : b < fileSize := (kb_lt_iff _ _).mp hsmall
    rw [hbdef] at hbfs
    exact absurd hbfs (hnone bq hmem)  -- contradiction, goal irrelevant
  | none =>
    dsimp only
    split_ifs <;> first | exact ⟨rfl, rfl⟩ | tauto

/-- The first eight entries of the encode trace are exactly the candidate
ladder, in order. -/
theorem findOptimalCompression_encoded_take (encode : ℚ → ℕ) (fileSize : ℕ) :
    (findOptimalCompression encode fileSize).encoded.take 8 =
      qualityLevels fileSize := by
  unfold findOptimalCompression
  rcases hsw : (qualityLevels fileSize).foldl
      (sweepStep encode (originalSizeKBOf fileSize))
      (none, startQualityOf fileSize, 0) with ⟨ob, bq, rb⟩
  cases ob with
  | none =>
    dsimp only
    split_ifs <;> rfl
  | some b =>
    dsimp only
    split_ifs <;> rfl

/-- On the transparent path the result is the PNG record and no lossy encode
happens. -/
theorem processImage_transparent (fileSize : ℕ) (imgWidth imgHeight : ℚ)
    (targetQuality : Option ℤ) (cropParams : Option CropParams) (composed : Canvas)
    (pngBlobSize : ℕ) (encode : ℚ → ℕ)
    (htr : hasTransparency composed = true) :
    processImage fileSize imgWidth imgHeight targetQuality cropParams composed
        pngBlobSize encode =
      ({ size := pngBlobSize, sizeKB := jsRound ((pngBlobSize : ℚ) / 1024),
         quality := 100,
         dimensions := { width := (resolveGeometry imgWidth imgHeight cropParams).targetWidth,
                         height := (resolveGeometry imgWidth imgHeight cropParams).targetHeight },
         aspectRatio := (match cropParams with
           | some cp => cp.aspectRatio.getD "16:9"
           | none => "16:9"),
         format := ImageFormat.PNG, preservedTransparency := true,
         originalSizeKB := none, compressionRatio := none }, []) := by
  simp [processImage, htr]

/-- On the opaque path with an explicit target quality the result comes from
a single encode at that quality. -/
theorem processImage_explicit (fileSize : ℕ) (imgWidth imgHeight : ℚ) (q : ℤ)
    (cropParams : Option CropParams) (composed : Canvas) (pngBlobSize : ℕ)
    (encode : ℚ → ℕ) (hsolid : hasTransparency composed = false) :
    processImage fileSize imgWidth imgHeight (some q) cropParams composed
        pngBlobSize encode =
      ({ size := compressImage encode (q : ℚ),
         sizeKB := jsRound ((compressImage encode (q : ℚ) : ℚ) / 1024),
         quality := q,
         dimensions := { width := (resolveGeometry imgWidth imgHeight cropParams).targetWidth,
                         height := (resolveGeometry imgWidth imgHeight cropParams).targetHeight },
         aspectRatio := (match cropParams with
           | some cp => cp.aspectRatio.getD "16:9"
           | none => "16:9"),
         format := ImageFormat.JPEG, preservedTransparency := false,
         originalSizeKB := some (jsRound ((fileSize : ℚ) / 1024)),
         compressionRatio := some (jsRound
           ((1 - (compressImage encode (q : ℚ) : ℚ) / (fileSize : ℚ)) * 100)) },
       [(q : ℚ)]) := by
  simp [processImage, hsolid]

/-- On the opaque path in auto mode the result comes from the compression
search. -/
theorem processImage_auto (fileSize : ℕ) (imgWidth imgHeight : ℚ)
    (cropParams : Option CropParams) (composed : Canvas) (pngBlobSize : ℕ)
    (encode : ℚ → ℕ) (hsolid : hasTransparency composed = false) :
    processImage fileSize imgWidth imgHeight none cropParams composed
        pngBlobSize encode =
      ({ size := (findOptimalCompression encode fileSize).blobSize,
         sizeKB := jsRound (((findOptimalCompression encode fileSize).blobSize : ℚ) / 1024),
         quality := jsRound (findOptimalCompression encode fileSize).quality,
         dimensions := { width := (resolveGeometry imgWidth imgHeight cropParams).targetWidth,
                         height := (resolveGeometry imgWidth imgHeight cropParams).targetHeight },
         aspectRatio := (match cropParams with
           | some cp => cp.aspectRatio.getD "16:9"
           | none => "16:9"),
         format := ImageFormat.JPEG, preservedTransparency := false,
         originalSizeKB := some (jsRound ((fileSize : ℚ) / 1024)),
         compressionRatio := some (jsRound
           ((1 - ((findOptimalCompression encode fileSize).blobSize : ℚ) /
             (fileSize : ℚ)) * 100)) },
       (findOptimalCompression encode fileSize).encoded) := by
  simp [processImage, hsolid]

/-- Sample encoder used in concrete witnesses: blob size grows linearly with
the quality ratio handed to the encoder. -/
def encSample (r : ℚ) : ℕ := (⌊r * 102400⌋).toNat

/-- C2: for an opaque-surface conversion in auto mode the search encodes at
the eight ladder qualities 95..minQuality (minQuality being 30, 25 above
1000KB, 20 above 2000KB); the returned encode is a ladder candidate strictly
smaller than the original that maximizes the compression ratio, and when no
candidate shrinks the file the result is a fresh encode at quality 95,
upgraded to an accepted quality-98 re-encode only for sub-100KB originals
whose quality-95 blob exceeds the original. -/
theorem c2_auto_compression_search (fileSize : ℕ) (imgWidth imgHeight : ℚ)
    (cropParams : Option CropParams) (composed : Canvas) (pngBlobSize : ℕ)
    (encode : ℚ → ℕ)
    (hsolid : hasTransparency composed = false) (hfs : 0 < fileSize) :
    (processImage fileSize imgWidth imgHeight none cropParams composed pngBlobSize
        encode).2.take 8 = [95, 85, 75, 65, 55, 45, 35, minQualityOf fileSize] ∧
    minQualityOf fileSize =
      (if (fileSize : ℚ) / 1024 > 2000 then 20
       else if (fileSize : ℚ) / 1024 > 1000 then 25 else 30) ∧
    ((∃ q ∈ qualityLevels fileSize, compressImage encode q < fileSize) →
      ∃ q ∈ qualityLevels fileSize,
        (processImage fileSize imgWidth imgHeight none cropParams composed
            pngBlobSize encode).1.quality = jsRound q ∧
        (processImage fileSize imgWidth imgHeight none cropParams composed
            pngBlobSize encode).1.size = compressImage encode q ∧
        compressImage encode q < fileSize ∧
        ∀ q2 ∈ qualityLevels fileSize, compressImage encode q2 < fileSize →
          (originalSizeKBOf fileSize - (compressImage encode q2 : ℚ) / 1024) /
              originalSizeKBOf fileSize ≤
            (originalSizeKBOf fileSize - (compressImage encode q : ℚ) / 1024) /
              originalSizeKBOf fileSize) ∧
    ((∀ q ∈ qualityLevels fileSize, ¬ compressImage encode q < fileSize) →
      (processImage fileSize imgWidth imgHeight none cropParams composed
          pngBlobSize encode).1.quality =
        (if originalSizeKBOf fileSize < 100 ∧ fileSize < compressImage encode 95 ∧
            compressImage encode 98 ≤ fileSize then 98 else 95) ∧
      (processImage fileSize imgWidth imgHeight none cropParams composed
          pngBlobSize encode).1.size =
        (if originalSizeKBOf fileSize < 100 ∧ fileSize < compressImage encode 95 ∧
            compressImage encode 98 ≤ fileSize then compressImage encode 98
         else compressImage encode 95)) := by
  have hK : 0 < originalSizeKBOf fileSize := by
    rw [originalSizeKBOf]
    positivity
  rw [processImage_auto fileSize imgWidth imgHeight cropParams composed pngBlobSize
    encode hsolid]
  refine ⟨?_, ?_, ?_, ?_⟩
  · simpa [qualityLevels] using findOptimalCompression_encoded_take encode fileSize
  · rw [minQualityOf, originalSizeKBOf]
  · intro hex
    obtain ⟨hmem, hbdef, hlt, hmax⟩ := findOptimalCompression_of_shrinking encode fileSize hex
    refine ⟨(findOptimalCompression encode fileSize).quality, hmem, rfl, ?_, ?_, ?_⟩
    · exact hbdef
    · rw [← hbdef]
      exact hlt
    · intro q2 hq2 hq2small
      have hbc : (findOptimalCompression encode fileSize).blobSize ≤ compressImage encode q2 :=
        hmax q2 hq2 hq2small
      rw [← hbdef]
      rw [div_le_div_iff hK hK]
      have hbc2 : ((findOptimalCompression encode fileSize).blobSize : ℚ) ≤
          (compressImage encode q2 : ℚ) := by exact_mod_cast hbc
      have hsub : originalSizeKBOf fileSize - (compressImage encode q2 : ℚ) / 1024 ≤
          originalSizeKBOf fileSize -
            ((findOptimalCompression encode fileSize).blobSize : ℚ) / 1024 := by
        linarith
      exact mul_le_mul_of_nonneg_right hsub hK.le
  · intro hnone
    obtain ⟨hq, hb⟩ := findOptimalCompression_of_not_shrinking encode fileSize hnone
    constructor
    · rw [hq]
      split_ifs <;> (dsimp only; norm_num [jsRound])
    · exact hb

/-- Witness for C2 at a concrete opaque conversion. -/
theorem c2_auto_compression_search_witness :
    hasTransparency ⟨[0, 0, 0, 255]⟩ = false ∧ 0 < 204800 ∧
    (processImage 204800 4000 2000 none none ⟨[0, 0, 0, 255]⟩ 999
        encSample).2.take 8 = [95, 85, 75, 65, 55, 45, 35, minQualityOf 204800] :=
  ⟨by decide, by decide,
    (c2_auto_compression_search 204800 4000 2000 none ⟨[0, 0, 0, 255]⟩ 999
      encSample (by decide) (by decide)).1⟩

/-- C4: an opaque-surface conversion with an explicit target quality in
[1,100] performs exactly one lossy encode, at that quality, bypassing the
candidate search, and reports that quality as the result's quality field. -/
theorem c4_explicit_quality_single_encode (fileSize : ℕ) (imgWidth imgHeight : ℚ)
    (q : ℤ) (hq1 : 1 ≤ q) (hq2 : q ≤ 100)
    (cropParams : Option CropParams) (composed : Canvas) (pngBlobSize : ℕ)
    (encode : ℚ → ℕ) (hsolid : hasTransparency composed = false) :
    (processImage fileSize imgWidth imgHeight (some q) cropParams composed
        pngBlobSize encode).1.quality = q ∧
    (processImage fileSize imgWidth imgHeight (some q) cropParams composed
        pngBlobSize encode).1.format = ImageFormat.JPEG ∧
    (processImage fileSize imgWidth imgHeight (some q) cropParams composed
        pngBlobSize encode).1.size = compressImage encode (q : ℚ) ∧
    (processImage fileSize imgWidth imgHeight (some q) cropParams composed
        pngBlobSize encode).2 = [(q : ℚ)] := by
  rw [processImage_explicit fileSize imgWidth imgHeight q cropParams composed
    pngBlobSize encode hsolid]
  exact ⟨rfl, rfl, rfl, rfl⟩

/-- Witness for C4 at target quality 50. -/
theorem c4_explicit_quality_single_encode_witness :
    (1 : ℤ) ≤ 50 ∧ (50 : ℤ) ≤ 100 ∧ hasTransparency ⟨[0, 0, 0, 255]⟩ = false ∧
    ((processImage 204800 4000 2000 (some 50) none ⟨[0, 0, 0, 255]⟩ 999
        encSample).1.quality = 50 ∧
      (processImage 204800 4000 2000 (some 50) none ⟨[0, 0, 0, 255]⟩ 999
        encSample).1.format = ImageFormat.JPEG ∧
      (processImage 204800 4000 2000 (some 50) none ⟨[0, 0, 0, 255]⟩ 999
        encSample).1.size = compressImage encSample ((50 : ℤ) : ℚ) ∧
      (processImage 204800 4000 2000 (some 50) none ⟨[0, 0, 0, 255]⟩ 999
        encSample).2 = [((50 : ℤ) : ℚ)]) :=
  ⟨by decide, by decide, by decide,
    c4_explicit_quality_single_encode 204800 4000 2000 50 (by decide) (by decide)
      none ⟨[0, 0, 0, 255]⟩ 999 encSample (by decide)⟩

/-- The source x coordinate whose image lands at destination x coordinate
`dx` under the no-crop draw call
`ctx.drawImage(img, offsetX, offsetY, drawWidth, drawHeight)`
(imageProcessor.js line 90), which maps the full source width onto the
horizontal span `[offsetX, offsetX + drawWidth]`. -/
def srcXOfDestX (g : Geometry) (imgWidth dx : ℚ) : ℚ :=
  (dx - g.offsetX) * imgWidth / g.drawWidth

/-- The source y coordinate whose image lands at destination y coordinate
`dy` under the no-crop draw call (imageProcessor.js line 90). -/
def srcYOfDestY (g : Geometry) (imgHeight dy : ℚ) : ℚ :=
  (dy - g.offsetY) * imgHeight / g.drawHeight

/-- C3: with no crop the canvas is exactly 1920x1080, the scaled image covers
the whole canvas (no letterboxing), and the source region visible on the
canvas is the centered crop-to-cover region: full height and a horizontally
centered span of width sourceHeight * 16/9 for relatively wide sources, full
width and a vertically centered span of height sourceWidth * 9/16
otherwise. -/
theorem c3_no_crop_center_cover (w h : ℚ) (hw : 0 < w) (hh : 0 < h) :
    (resolveGeometry w h none).targetWidth = 1920 ∧
    (resolveGeometry w h none).targetHeight = 1080 ∧
    ((resolveGeometry w h none).offsetX ≤ 0 ∧
      1920 ≤ (resolveGeometry w h none).offsetX + (resolveGeometry w h none).drawWidth ∧
      (resolveGeometry w h none).offsetY ≤ 0 ∧
      1080 ≤ (resolveGeometry w h none).offsetY + (resolveGeometry w h none).drawHeight) ∧
    (w / h > 1920 / 1080 →
      srcYOfDestY (resolveGeometry w h none) h 0 = 0 ∧
      srcYOfDestY (resolveGeometry w h none) h 1080 = h ∧
      srcXOfDestX (resolveGeometry w h none) w 0 = (w - h * (16 / 9)) / 2 ∧
      srcXOfDestX (resolveGeometry w h none) w 1920 -
        srcXOfDestX (resolveGeometry w h none) w 0 = h * (16 / 9)) ∧
    (¬ w / h > 1920 / 1080 →
      srcXOfDestX (resolveGeometry w h none) w 0 = 0 ∧
      srcXOfDestX (resolveGeometry w h none) w 1920 = w ∧
      srcYOfDestY (resolveGeometry w h none) h 0 = (h - w * (9 / 16)) / 2 ∧
      srcYOfDestY (resolveGeometry w h none) h 1080 -
        srcYOfDestY (resolveGeometry w h none) h 0 = w * (9 / 16)) := by
  have hhne : h ≠ 0 := ne_of_gt hh
  have hwne : w ≠ 0 := ne_of_gt hw
  have ha : 0 < w / h := div_pos hw hh
  have hg : resolveGeometry w h none =
      (if w / h > 1920 / 1080 then
        { targetWidth := 1920, targetHeight := 1080, sourceX := 0, sourceY := 0,
          sourceWidth := w, sourceHeight := h,
          drawWidth := 1080 * (w / h), drawHeight := 1080,
          offsetX := (1920 - 1080 * (w / h)) / 2, offsetY := 0 }
      else
        { targetWidth := 1920, targetHeight := 1080, sourceX := 0, sourceY := 0,
          sourceWidth := w, sourceHeight := h,
          drawWidth := 1920, drawHeight := 1920 / (w / h),
          offsetX := 0, offsetY := (1080 - 1920 / (w / h)) / 2 }) := rfl
  by_cases hcond : w / h > 1920 / 1080
  · rw [hg, if_pos hcond]
    have hgt : (16 : ℚ) / 9 < w / h := by
      rw [show ((1920 : ℚ) / 1080) = 16 / 9 by norm_num] at hcond
      exact hcond
    have hD : (0 : ℚ) < 1080 * (w / h) := by positivity
    have hDge : (1920 : ℚ) ≤ 1080 * (w / h) := by nlinarith
    refine ⟨rfl, rfl, ⟨by dsimp only; linarith, by dsimp only; linarith,
      by dsimp only; norm_num, by dsimp only; norm_num⟩, ?_, fun hc => absurd hcond hc⟩
    intro _
    refine ⟨?_, ?_, ?_, ?_⟩
    · rw [srcYOfDestY]
      dsimp only
      norm_num
    · rw [srcYOfDestY]
      dsimp only
      field_simp
    · rw [srcXOfDestX]
      dsimp only
      field_simp
      ring
    · rw [srcXOfDestX, srcXOfDestX]
      dsimp only
      field_simp
      ring
  · rw [hg, if_neg hcond]
    have hle : w / h ≤ (16 : ℚ) / 9 := by
      rw [show ((1920 : ℚ) / 1080) = 16 / 9 by norm_num] at hcond
      exact not_lt.mp hcond
    have hE : (0 : ℚ) < 1920 / (w / h) := div_pos (by norm_num) ha
    have hEge : (1080 : ℚ) ≤ 1920 / (w / h) := by
      rw [le_div_iff ha]
      nlinarith
    refine ⟨rfl, rfl, ⟨by dsimp only; norm_num, by dsimp only; norm_num,
      by dsimp only; linarith, by dsimp only; linarith⟩,
      fun hc => absurd hc hcond, ?_⟩
    intro _
    refine ⟨?_, ?_, ?_, ?_⟩
    · rw [srcXOfDestX]
      dsimp only
      norm_num
    · rw [srcXOfDestX]
      dsimp only
      field_simp
    · rw [srcYOfDestY]
      dsimp only
      field_simp
      ring
    · rw [srcYOfDestY, srcYOfDestY]
      dsimp only
      field_simp
      ring

/-- Witness for C3 at a 4000x2000 source. -/
theorem c3_no_crop_center_cover_witness :
    (0 : ℚ) < 4000 ∧ (0 : ℚ) < 2000 ∧
    (resolveGeometry 4000 2000 none).targetWidth = 1920 ∧
    (resolveGeometry 4000 2000 none).targetHeight = 1080 :=
  ⟨by norm_num, by norm_num,
    (c3_no_crop_center_cover 4000 2000 (by norm_num) (by norm_num)).1,
    (c3_no_crop_center_cover 4000 2000 (by norm_num) (by norm_num)).2.1⟩

/-- C5 counterexample: the resolver neither clamps nor rejects.  A crop with
x = 0.9 and width = 0.5 on a 1000x1000 source resolves to a sub-rectangle
reaching x = 1400, beyond the source bound 1000 (clamping x to [0, 1-width]
would have capped it at 500 + 500), and a width-0 crop resolves to a
zero-width sub-rectangle yet is still processed to a normal result. -/
theorem c5_counterexample :
    (resolveGeometry 1000 1000
        (some ⟨9/10, 0, 1/2, 1/2, some ⟨1080, 1080⟩, none⟩)).sourceX = 900 ∧
    (resolveGeometry 1000 1000
        (some ⟨9/10, 0, 1/2, 1/2, some ⟨1080, 1080⟩, none⟩)).sourceWidth = 500 ∧
    ¬ ((resolveGeometry 1000 1000
          (some ⟨9/10, 0, 1/2, 1/2, some ⟨1080, 1080⟩, none⟩)).sourceX +
        (resolveGeometry 1000 1000
          (some ⟨9/10, 0, 1/2, 1/2, some ⟨1080, 1080⟩, none⟩)).sourceWidth ≤ 1000) ∧
    (resolveGeometry 1000 1000
        (some ⟨0, 0, 0, 0, some ⟨1080, 1080⟩, none⟩)).sourceWidth = 0 ∧
    (processImage 50000 1000 1000 (some 50)
        (some ⟨0, 0, 0, 0, some ⟨1080, 1080⟩, none⟩)
        ⟨[0, 0, 0, 255]⟩ 999 encSample).1.format = ImageFormat.JPEG := by
  refine ⟨?_, ?_, ?_, ?_, ?_⟩
  · norm_num [resolveGeometry]
  · norm_num [resolveGeometry]
  · norm_num [resolveGeometry]
  · norm_num [resolveGeometry]
  · rw [processImage_explicit 50000 1000 1000 50
      (some ⟨0, 0, 0, 0, some ⟨1080, 1080⟩, none⟩) ⟨[0, 0, 0, 255]⟩ 999 encSample
      (by decide)]

/-- C5 amended: the engine performs no clamping and no rejection on supplied
crop specifications: the source sub-rectangle is exactly the supplied
normalized rectangle scaled by the source dimensions, whatever its values
(including positions past 1 - size and non-positive sizes), and such crops
are processed rather than rejected. -/
theorem c5_amended_no_clamping (imgWidth imgHeight : ℚ) (cp : CropParams) :
    (resolveGeometry imgWidth imgHeight (some cp)).sourceX = cp.x * imgWidth ∧
    (resolveGeometry imgWidth imgHeight (some cp)).sourceY = cp.y * imgHeight ∧
    (resolveGeometry imgWidth imgHeight (some cp)).sourceWidth = cp.width * imgWidth ∧
    (resolveGeometry imgWidth imgHeight (some cp)).sourceHeight = cp.height * imgHeight :=
  ⟨rfl, rfl, rfl, rfl⟩

/-- C6 counterexample: on the transparency/PNG path the result carries no
compression ratio at all (the field is absent, not a computed value). -/
theorem c6_counterexample :
    (processImage 5000 1000 1000 none none ⟨[0, 0, 0, 128]⟩ 4000
        encSample).1.compressionRatio = none ∧
    (processImage 5000 1000 1000 none none ⟨[0, 0, 0, 128]⟩ 4000
        encSample).1.format = ImageFormat.PNG := by
  rw [processImage_transparent 5000 1000 1000 none none ⟨[0, 0, 0, 128]⟩ 4000
    encSample (by decide)]
  exact ⟨rfl, rfl⟩

/-- C6 amended: on the lossy (opaque-surface) paths the result carries
compressionRatio = round((1 - resultSize/originalSize) * 100), which can be
negative when the output is larger than the original; the transparency/PNG
path omits the field entirely. -/
theorem c6_amended_compression_ratio_on_lossy_paths (fileSize : ℕ)
    (imgWidth imgHeight : ℚ) (targetQuality : Option ℤ)
    (cropParams : Option CropParams) (composed : Canvas) (pngBlobSize : ℕ)
    (encode : ℚ → ℕ) (hfs : 0 < fileSize) :
    (hasTransparency composed = false →
      (processImage fileSize imgWidth imgHeight targetQuality cropParams composed
          pngBlobSize encode).1.compressionRatio =
        some (jsRound ((1 - ((processImage fileSize imgWidth imgHeight targetQuality
            cropParams composed pngBlobSize encode).1.size : ℚ) / (fileSize : ℚ)) *
          100))) ∧
    (hasTransparency composed = true →
      (processImage fileSize imgWidth imgHeight targetQuality cropParams composed
          pngBlobSize encode).1.compressionRatio = none) ∧
    (processImage 204800 4000 2000 (some 50) none ⟨[0, 0, 0, 255]⟩ 999
        (fun _ => 409600)).1.compressionRatio = some (-100) := by
  refine ⟨?_, ?_, ?_⟩
  · intro hsolid
    cases targetQuality with
    | none =>
      rw [processImage_auto fileSize imgWidth imgHeight cropParams composed
        pngBlobSize encode hsolid]
    | some q =>
      rw [processImage_explicit fileSize imgWidth imgHeight q cropParams composed
        pngBlobSize encode hsolid]
  · intro htr
    rw [processImage_transparent fileSize imgWidth imgHeight targetQuality cropParams
      composed pngBlobSize encode htr]
  · rw [processImage_explicit 204800 4000 2000 50 none ⟨[0, 0, 0, 255]⟩ 999
      (fun _ => 409600) (by decide)]
    norm_num [jsRound, compressImage]

/-- The quality reported by the search always comes from the extended ladder
set: a ladder value (including the size-dependent minimum 20/25/30) or one of
the fallback qualities 95 and 98. -/
theorem findOptimalCompression_quality_mem (encode : ℚ → ℕ) (fileSize : ℕ) :
    jsRound (findOptimalCompression encode fileSize).quality ∈
      ([20, 25, 30, 35, 45, 55, 65, 75, 85, 95, 98] : List ℤ) := by
  by_cases hex : ∃ q ∈ qualityLevels fileSize, compressImage encode q < fileSize
  · obtain ⟨hmem, -, -, -⟩ := findOptimalCompression_of_shrinking encode fileSize hex
    rw [qualityLevels, minQualityOf] at hmem
    split_ifs at hmem <;>
      (simp only [List.mem_cons, List.not_mem_nil, or_false] at hmem;
       rcases hmem with h | h | h | h | h | h | h | h <;> rw [h] <;>
         norm_num [jsRound])
  · push_neg at hex
    obtain ⟨hq, -⟩ := findOptimalCompression_of_not_shrinking encode fileSize
      (fun q hq => not_lt.mpr (hex q hq))
    rw [hq]
    split_ifs <;> norm_num [jsRound]

/-- C7 counterexample: a 4000x2000 opaque source, no crop, auto quality, with
a monotone encoder that shrinks at every ladder quality: the chosen quality
is the ladder minimum 30, which lies outside the claimed set
{35,45,55,65,75,85,95,98}. -/
theorem c7_counterexample :
    (processImage 204800 4000 2000 none none ⟨[0, 0, 0, 255]⟩ 999
        encSample).1.quality = 30 ∧
    (processImage 204800 4000 2000 none none ⟨[0, 0, 0, 255]⟩ 999
        encSample).1.quality ∉ ([35, 45, 55, 65, 75, 85, 95, 98] : List ℤ) := by
  have hlev : qualityLevels 204800 = [95, 85, 75, 65, 55, 45, 35, 30] := by
    rw [qualityLevels]
    norm_num [minQualityOf, originalSizeKBOf]
  have h30s : compressImage encSample 30 < 204800 := by
    norm_num [compressImage, encSample, Int.reduceToNat]
  have hex : ∃ q ∈ qualityLevels 204800, compressImage encSample q < 204800 :=
    ⟨30, by rw [hlev]; simp, h30s⟩
  obtain ⟨hmem, hbdef, hlt, hmax⟩ :=
    findOptimalCompression_of_shrinking encSample 204800 hex
  have hle : (findOptimalCompression encSample 204800).blobSize ≤
      compressImage encSample 30 :=
    hmax 30 (by rw [hlev]; simp) h30s
  norm_num [compressImage, encSample, Int.reduceToNat] at hle
  rw [hlev] at hmem
  simp only [List.mem_cons, List.not_mem_nil, or_false] at hmem
  have hq30 : (findOptimalCompression encSample 204800).quality = 30 := by
    rcases hmem with h | h | h | h | h | h | h | h
    all_goals (first
      | exact h
      | (exfalso
         rw [h] at hbdef
         rw [hbdef] at hle
         norm_num [compressImage, encSample, Int.reduceToNat] at hle))
  have hq : (processImage 204800 4000 2000 none none ⟨[0, 0, 0, 255]⟩ 999
      encSample).1.quality = 30 := by
    rw [processImage_auto 204800 4000 2000 none ⟨[0, 0, 0, 255]⟩ 999 encSample
      (by decide)]
    dsimp only
    rw [hq30]
    norm_num [jsRound]
  exact ⟨hq, by rw [hq]; decide⟩

/-- C7 amended: for a 4000x2000 opaque source with no crop and auto quality
the result is a 1920x1080 JPEG whose quality is one of the ladder values
(including the size-dependent minimum 20, 25 or 30) or a fallback value 95 or
98 - i.e. lies in {20,25,30,35,45,55,65,75,85,95,98} - and whose compression
ratio is computed from the actual result and original byte counts. -/
theorem c7_amended_auto_quality_set (fileSize : ℕ) (composed : Canvas)
    (pngBlobSize : ℕ) (encode : ℚ → ℕ)
    (hsolid : hasTransparency composed = false) (hfs : 0 < fileSize) :
    (processImage fileSize 4000 2000 none none composed pngBlobSize
        encode).1.dimensions = ⟨1920, 1080⟩ ∧
    (processImage fileSize 4000 2000 none none composed pngBlobSize
        encode).1.format = ImageFormat.JPEG ∧
    (processImage fileSize 4000 2000 none none composed pngBlobSize
        encode).1.quality ∈ ([20, 25, 30, 35, 45, 55, 65, 75, 85, 95, 98] : List ℤ) ∧
    (processImage fileSize 4000 2000 none none composed pngBlobSize
        encode).1.compressionRatio =
      some (jsRound ((1 - ((processImage fileSize 4000 2000 none none composed
          pngBlobSize encode).1.size : ℚ) / (fileSize : ℚ)) * 100)) := by
  rw [processImage_auto fileSize 4000 2000 none composed pngBlobSize encode hsolid]
  refine ⟨?_, rfl, ?_, rfl⟩
  · have : resolveGeometry 4000 2000 none =
        { targetWidth := 1920, targetHeight := 1080, sourceX := 0, sourceY := 0,
          sourceWidth := 4000, sourceHeight := 2000,
          drawWidth := 1080 * (4000 / 2000), drawHeight := 1080,
          offsetX := (1920 - 1080 * (4000 / 2000)) / 2, offsetY := 0 } := by
      rw [show resolveGeometry 4000 2000 none =
          (if (4000 : ℚ) / 2000 > 1920 / 1080 then _ else _) from rfl]
      rw [if_pos (by norm_num)]
    rw [this]
  · exact findOptimalCompression_quality_mem encode fileSize

/-- Witness for the amended C7 at a concrete conversion. -/
theorem c7_amended_auto_quality_set_witness :
    hasTransparency ⟨[0, 0, 0, 255]⟩ = false ∧ 0 < 204800 ∧
    ((processImage 204800 4000 2000 none none ⟨[0, 0, 0, 255]⟩ 999
        encSample).1.dimensions = ⟨1920, 1080⟩ ∧
      (processImage 204800 4000 2000 none none ⟨[0, 0, 0, 255]⟩ 999
        encSample).1.format = ImageFormat.JPEG ∧
      (processImage 204800 4000 2000 none none ⟨[0, 0, 0, 255]⟩ 999
        encSample).1.quality ∈ ([20, 25, 30, 35, 45, 55, 65, 75, 85, 95, 98] : List ℤ) ∧
      (processImage 204800 4000 2000 none none ⟨[0, 0, 0, 255]⟩ 999
        encSample).1.compressionRatio =
        some (jsRound ((1 - ((processImage 204800 4000 2000 none none
            ⟨[0, 0, 0, 255]⟩ 999 encSample).1.size : ℚ) / (204800 : ℚ)) * 100))) :=
  ⟨by decide, by decide,
    c7_amended_auto_quality_set 204800 ⟨[0, 0, 0, 255]⟩ 999 encSample
      (by decide) (by decide)⟩

/-- Witness for the amended C6 on the explicit-quality lossy path. -/
theorem c6_amended_compression_ratio_on_lossy_paths_witness :
    0 < 204800 ∧ hasTransparency ⟨[0, 0, 0, 255]⟩ = false ∧
    (processImage 204800 4000 2000 (some 50) none ⟨[0, 0, 0, 255]⟩ 999
        encSample).1.compressionRatio =
      some (jsRound ((1 - ((processImage 204800 4000 2000 (some 50) none
          ⟨[0, 0, 0, 255]⟩ 999 encSample).1.size : ℚ) / (204800 : ℚ)) * 100)) :=
  ⟨by decide, by decide,
    (c6_amended_compression_ratio_on_lossy_paths 204800 4000 2000 (some 50) none
      ⟨[0, 0, 0, 255]⟩ 999 encSample (by decide)).1 (by decide)⟩

/-- A decoded source raster: dimensions and the alpha byte at each integer
pixel coordinate. -/
structure SourceImage where
  width : ℕ
  height : ℕ
  alpha : ℕ → ℕ → ℕ

/-- Whether the resolved source sub-rectangle contains a source pixel whose
alpha byte is below 255. -/
def regionHasLowAlpha (img : SourceImage) (g : Geometry) : Bool :=
  (List.range img.width).any fun i =>
    (List.range img.height).any fun j =>
      decide (g.sourceX ≤ (i : ℚ)) && decide ((i : ℚ) < g.sourceX + g.sourceWidth) &&
        decide (g.sourceY ≤ (j : ℚ)) && decide ((j : ℚ) < g.sourceY + g.sourceHeight) &&
        decide (img.alpha i j < 255)

/-- Modelled from the spec: the rasterization step (spec section 4.2 step 1 -
the `ctx.drawImage` browser primitive, whose implementation is not in src/)
samples only the resolved source sub-rectangle, scaled to fill the entire
destination canvas, so the composed surface contains a pixel with alpha below
255 exactly when the sampled sub-rectangle contains such a source pixel.  The
composed canvas is modelled up to the one observation the engine makes of it:
the alpha scan of spec section 4.2 step 2. -/
def renderedCanvas (img : SourceImage) (g : Geometry) : Canvas :=
  ⟨[0, 0, 0, if regionHasLowAlpha img g then 254 else 255]⟩

/-- The modelled composed canvas has transparency exactly when the sampled
sub-rectangle has a non-opaque pixel. -/
theorem hasTransparency_renderedCanvas (img : SourceImage) (g : Geometry) :
    hasTransparency (renderedCanvas img g) = regionHasLowAlpha img g := by
  rw [renderedCanvas]
  cases h : regionHasLowAlpha img g <;> simp [h, hasTransparency, alphaBytes]

/-- The center 512x512 crop of a 1000x1000 source at 1:1 output 1080x1080, as
CropSelector emits it (x = y = (1000-512)/2 / 1000, width = height =
512/1000, outputDimensions from the 1:1 entry of its table). -/
def centerCrop512 : CropParams :=
  ⟨244/1000, 244/1000, 512/1000, 512/1000, some ⟨1080, 1080⟩, some "1:1"⟩

/-- A 1000x1000 source whose top-left 100x100 corner is fully transparent and
which is opaque elsewhere. -/
def cornerImage : SourceImage :=
  ⟨1000, 1000, fun i j => if i < 100 ∧ j < 100 then 0 else 255⟩

/-- The transparent corner of `cornerImage` lies wholly outside the center
512x512 crop, so the sampled sub-rectangle is opaque. -/
theorem regionHasLowAlpha_cornerImage :
    regionHasLowAlpha cornerImage (resolveGeometry 1000 1000 (some centerCrop512)) =
      false := by
  have hx : (resolveGeometry 1000 1000 (some centerCrop512)).sourceX = 244 := by
    norm_num [resolveGeometry, centerCrop512]
  have hy : (resolveGeometry 1000 1000 (some centerCrop512)).sourceY = 244 := by
    norm_num [resolveGeometry, centerCrop512]
  rw [← Bool.not_eq_true]
  intro htrue
  rw [regionHasLowAlpha, List.any_eq_true] at htrue
  obtain ⟨i, hi, htrue⟩ := htrue
  rw [List.any_eq_true] at htrue
  obtain ⟨j, hj, htrue⟩ := htrue
  simp only [Bool.and_eq_true, decide_eq_true_eq] at htrue
  obtain ⟨⟨⟨⟨h1, h2⟩, h3⟩, h4⟩, h5⟩ := htrue
  rw [hx] at h1
  rw [hy] at h3
  have hi244 : 244 ≤ i := by exact_mod_cast h1
  have hj244 : 244 ≤ j := by exact_mod_cast h3
  have halpha : cornerImage.alpha i j = 255 := by
    rw [cornerImage]
    dsimp only
    rw [if_neg (by omega : ¬ (i < 100 ∧ j < 100))]
  rw [halpha] at h5
  omega

/-- C8 counterexample: for a 1000x1000 source whose fully transparent corner
(the 100x100 top-left block) lies outside the center 512x512 crop, the
composed surface is opaque and a JPEG-requested conversion yields a JPEG, not
the claimed PNG. -/
theorem c8_counterexample :
    (processImageWithFormat 50000 1000 1000 none (some centerCrop512)
        (renderedCanvas cornerImage (resolveGeometry 1000 1000 (some centerCrop512)))
        999 encSample ImageFormat.JPEG).1.format = ImageFormat.JPEG ∧
    ImageFormat.JPEG ≠ ImageFormat.PNG := by
  constructor
  · rw [processImageWithFormat]
    rw [processImage_auto 50000 1000 1000 (some centerCrop512) _ 999 encSample
      (by rw [hasTransparency_renderedCanvas]; exact regionHasLowAlpha_cornerImage)]
  · decide

/-- C8 amended: for a 1000x1000 source with the center 512x512 crop at 1:1
output 1080x1080 and JPEG requested, the result's dimensions are always
1080x1080; the format is forced to PNG with quality 100 exactly when the
cropped sub-rectangle itself contains a pixel with alpha below 255, and a
transparent region disjoint from the crop (such as a transparent corner)
leaves the composed surface opaque and yields a JPEG. -/
theorem c8_amended_center_crop (fileSize : ℕ) (alpha : ℕ → ℕ → ℕ)
    (pngBlobSize : ℕ) (encode : ℚ → ℕ) :
    (processImageWithFormat fileSize 1000 1000 none (some centerCrop512)
        (renderedCanvas ⟨1000, 1000, alpha⟩
          (resolveGeometry 1000 1000 (some centerCrop512)))
        pngBlobSize encode ImageFormat.JPEG).1.dimensions = ⟨1080, 1080⟩ ∧
    (regionHasLowAlpha ⟨1000, 1000, alpha⟩
        (resolveGeometry 1000 1000 (some centerCrop512)) = true →
      (processImageWithFormat fileSize 1000 1000 none (some centerCrop512)
          (renderedCanvas ⟨1000, 1000, alpha⟩
            (resolveGeometry 1000 1000 (some centerCrop512)))
          pngBlobSize encode ImageFormat.JPEG).1.format = ImageFormat.PNG ∧
      (processImageWithFormat fileSize 1000 1000 none (some centerCrop512)
          (renderedCanvas ⟨1000, 1000, alpha⟩
            (resolveGeometry 1000 1000 (some centerCrop512)))
          pngBlobSize encode ImageFormat.JPEG).1.quality = 100) ∧
    (regionHasLowAlpha ⟨1000, 1000, alpha⟩
        (resolveGeometry 1000 1000 (some centerCrop512)) = false →
      (processImageWithFormat fileSize 1000 1000 none (some centerCrop512)
          (renderedCanvas ⟨1000, 1000, alpha⟩
            (resolveGeometry 1000 1000 (some centerCrop512)))
          pngBlobSize encode ImageFormat.JPEG).1.format = ImageFormat.JPEG) := by
  rw [processImageWithFormat]
  cases h : regionHasLowAlpha ⟨1000, 1000, alpha⟩
      (resolveGeometry 1000 1000 (some centerCrop512)) with
  | true =>
    rw [processImage_transparent fileSize 1000 1000 none (some centerCrop512) _
      pngBlobSize encode (by rw [hasTransparency_renderedCanvas]; exact h)]
    exact ⟨rfl, fun _ => ⟨rfl, rfl⟩, fun hc => Bool.noConfusion hc⟩
  | false =>
    rw [processImage_auto fileSize 1000 1000 (some centerCrop512) _
      pngBlobSize encode (by rw [hasTransparency_renderedCanvas]; exact h)]
    exact ⟨rfl, fun hc => Bool.noConfusion hc, fun _ => rfl⟩

/-- Witness for the amended C8 at a fully transparent source (whose center
crop region certainly contains a non-opaque pixel). -/
theorem c8_amended_center_crop_witness :
    regionHasLowAlpha ⟨1000, 1000, fun _ _ => 0⟩
        (resolveGeometry 1000 1000 (some centerCrop512)) = true ∧
    ((processImageWithFormat 50000 1000 1000 none (some centerCrop512)
        (renderedCanvas ⟨1000, 1000, fun _ _ => 0⟩
          (resolveGeometry 1000 1000 (some centerCrop512)))
        999 encSample ImageFormat.JPEG).1.dimensions = ⟨1080, 1080⟩ ∧
      (processImageWithFormat 50000 1000 1000 none (some centerCrop512)
        (renderedCanvas ⟨1000, 1000, fun _ _ => 0⟩
          (resolveGeometry 1000 1000 (some centerCrop512)))
        999 encSample ImageFormat.JPEG).1.format = ImageFormat.PNG ∧
      (processImageWithFormat 50000 1000 1000 none (some centerCrop512)
        (renderedCanvas ⟨1000, 1000, fun _ _ => 0⟩
          (resolveGeometry 1000 1000 (some centerCrop512)))
        999 encSample ImageFormat.JPEG).1.quality = 100) := by
  have h : regionHasLowAlpha ⟨1000, 1000, fun _ _ => 0⟩
      (resolveGeometry 1000 1000 (some centerCrop512)) = true := by
    rw [regionHasLowAlpha, List.any_eq_true]
    refine ⟨500, List.mem_range.mpr (by norm_num), ?_⟩
    rw [List.any_eq_true]
    refine ⟨500, List.mem_range.mpr (by norm_num), ?_⟩
    simp only [Bool.and_eq_true, decide_eq_true_eq]
    refine ⟨⟨⟨⟨?_, ?_⟩, ?_⟩, ?_⟩, ?_⟩ <;>
      norm_num [resolveGeometry, centerCrop512]
  have happ := c8_amended_center_crop 50000 (fun _ _ => 0) 999 encSample
  exact ⟨h, happ.1, (happ.2.1 h).1, (happ.2.1 h).2⟩

/-- C9 (code bug in the source): the engine ignores the requested output
format entirely - `processImage` declares no format parameter, so the format
argument its callers pass is dropped - and a WEBP request therefore never
yields a WEBP result: the format is PNG when the composed surface has
transparency and JPEG otherwise. -/
theorem c9_webp_request_never_webp (fileSize : ℕ) (imgWidth imgHeight : ℚ)
    (targetQuality : Option ℤ) (cropParams : Option CropParams) (composed : Canvas)
    (pngBlobSize : ℕ) (encode : ℚ → ℕ) :
    (processImageWithFormat fileSize imgWidth imgHeight targetQuality cropParams
        composed pngBlobSize encode ImageFormat.WEBP).1.format =
      (if hasTransparency composed then ImageFormat.PNG else ImageFormat.JPEG) ∧
    (processImageWithFormat fileSize imgWidth imgHeight targetQuality cropParams
        composed pngBlobSize encode ImageFormat.WEBP).1.format ≠ ImageFormat.WEBP := by
  rw [processImageWithFormat]
  cases h : hasTransparency composed with
  | true =>
    rw [processImage_transparent fileSize imgWidth imgHeight targetQuality cropParams
      composed pngBlobSize encode h]
    exact ⟨rfl, fun hcon => ImageFormat.noConfusion hcon⟩
  | false =>
    cases targetQuality with
    | some q =>
      rw [processImage_explicit fileSize imgWidth imgHeight q cropParams composed
        pngBlobSize encode h]
      exact ⟨rfl, fun hcon => ImageFormat.noConfusion hcon⟩
    | none =>
      rw [processImage_auto fileSize imgWidth imgHeight cropParams composed
        pngBlobSize encode h]
      exact ⟨rfl, fun hcon => ImageFormat.noConfusion hcon⟩

/-- C10: the engine validates nothing about targetQuality: for every non-null
integer value, including out-of-range ones such as the 500 that App.jsx's
processImageWithCrop really passes, the opaque path performs one encode with
targetQuality/100 handed to the encoder and reports the supplied value
verbatim in the quality field. -/
theorem c10_no_quality_validation (fileSize : ℕ) (imgWidth imgHeight : ℚ) (q : ℤ)
    (cropParams : Option CropParams) (composed : Canvas) (pngBlobSize : ℕ)
    (encode : ℚ → ℕ) (hsolid : hasTransparency composed = false) :
    (processImage fileSize imgWidth imgHeight (some q) cropParams composed
        pngBlobSize encode).1.quality = q ∧
    (processImage fileSize imgWidth imgHeight (some q) cropParams composed
        pngBlobSize encode).1.size = encode ((q : ℚ) / 100) ∧
    (processImage fileSize imgWidth imgHeight (some q) cropParams composed
        pngBlobSize encode).2 = [(q : ℚ)] ∧
    processImageWithCrop fileSize imgWidth imgHeight cropParams composed
        pngBlobSize encode =
      processImage fileSize imgWidth imgHeight (some 500) cropParams composed
        pngBlobSize encode ∧
    (processImageWithCrop fileSize imgWidth imgHeight cropParams composed
        pngBlobSize encode).1.quality = 500 := by
  rw [processImage_explicit fileSize imgWidth imgHeight q cropParams composed
    pngBlobSize encode hsolid]
  refine ⟨rfl, rfl, rfl, rfl, ?_⟩
  rw [processImageWithCrop, processImage_explicit fileSize imgWidth imgHeight 500
    cropParams composed pngBlobSize encode hsolid]

/-- Witness for C10 at the literal quality 500 of App.jsx. -/
theorem c10_no_quality_validation_witness :
    hasTransparency ⟨[0, 0, 0, 255]⟩ = false ∧
    ((processImage 204800 4000 2000 (some 500) none ⟨[0, 0, 0, 255]⟩ 999
        encSample).1.quality = 500 ∧
      (processImage 204800 4000 2000 (some 500) none ⟨[0, 0, 0, 255]⟩ 999
        encSample).1.size = encSample (((500 : ℤ) : ℚ) / 100) ∧
      (processImage 204800 4000 2000 (some 500) none ⟨[0, 0, 0, 255]⟩ 999
        encSample).2 = [((500 : ℤ) : ℚ)] ∧
      processImageWithCrop 204800 4000 2000 none ⟨[0, 0, 0, 255]⟩ 999 encSample =
        processImage 204800 4000 2000 (some 500) none ⟨[0, 0, 0, 255]⟩ 999
          encSample ∧
      (processImageWithCrop 204800 4000 2000 none ⟨[0, 0, 0, 255]⟩ 999
        encSample).1.quality = 500) :=
  ⟨by decide,
    c10_no_quality_validation 204800 4000 2000 500 none ⟨[0, 0, 0, 255]⟩ 999
      encSample (by decide)⟩
